import Mathlib

/-!
Shallow embedding of the Clash-Royale Ethereum matchmaker frontend.

The development models, directly from the JavaScript source:

* `Escrow` — the `EscrowModal` component (src/unnamed/part_010): its local
  state (`step`, `error`, `txHash`, `wager`), the handlers `beginFlow`,
  `confirmDeposit` and `restart`, the reset effect that runs when the `open`
  prop becomes true, and the render logic selecting the primary action button.
  Asynchronous handlers are modelled as atomic events carrying the outcome of
  the awaited operation: while a deposit is pending no other state-mutating
  control is clickable, so atomicity is faithful for traces in which the
  `open` prop is held constant.
* `Wallet` — the `useEthereumWallet` hook
  (src/frontend/src/hooks/useEthereumWallet.js).  The source file contains two
  revisions of the hook; both are modelled.  The revision with the
  `isManuallyConnecting` guard performs `connect` with a single suspension
  point (`Promise.all`); the unguarded revision suspends twice
  (`eth_requestAccounts`, then `eth_chainId`), so its `connect` is split into
  three events.  `ethers.utils.getAddress` (checksum normalisation) is an
  abstract parameter `normalize` of the step functions.
* `WagerFilterC` — the `WagerFilter` component
  (src/frontend/src/components/WagerFilter.jsx): `parseMaybeNumber`, `clamp`,
  `emitIfValidAndChanged`, the min/max change handlers, the blur handler and
  `applyPreset`.  JavaScript numbers are rationals extended with signed
  infinities (`JSNum`); `NaN` is represented by a failed parse (`none`).
* `Dashboard` — the `handleDeposit` callback of the profiles dashboard
  (src/unnamed/part_007, lines 1126–1147).
* `Blockchain` — `BlockchainClient.deposit`
  (src/frontend/src/services/blockchain.js), recording the wager id actually
  passed to the contract call.
-/

namespace Escrow

/-- Steps of the escrow modal state machine
(review, confirm, pending, success, failure). -/
inductive Step
  | review
  | confirm
  | pending
  | success
  | failure
deriving DecidableEq, Repr

/-- Props of `EscrowModal` relevant to its local state: `defaultWager` and
`opponent?.wagerEth`.  `none` models `undefined`. -/
structure Props where
  defaultWager : Option ℚ
  opponentWagerEth : Option ℚ
deriving DecidableEq, Repr

/-- JavaScript truthiness filter on an optional number: `0` and `undefined`
are falsy. -/
def truthyQ : Option ℚ → Option ℚ
  | some q => if q = 0 then none else some q
  | none => none

/-- The default wager derived from props:
`defaultWager || opponent?.wagerEth || 0.1`. -/
def defaultWagerOf (p : Props) : ℚ :=
  ((truthyQ p.defaultWager).orElse fun _ => truthyQ p.opponentWagerEth).getD (mkRat 1 10)

/-- Local state of `EscrowModal`.  The wager input content is modelled by the
finite number it coerces to under `Number(...)` (`none` when the text is
non-numeric, i.e. coerces to `NaN`). -/
structure ModalState where
  step : Step
  error : String
  txHash : String
  wager : Option ℚ
deriving DecidableEq, Repr

/-- State produced by the reset effect when `open` becomes true, which is also
the initial state of a freshly mounted modal. -/
def initModalState (p : Props) : ModalState :=
  { step := .review, error := "", txHash := "", wager := some (defaultWagerOf p) }

/-- Guard `canProceed`: the wager must be a numeric value strictly greater
than zero (`!wager`, `Number.isNaN`, and `Number(wager) <= 0` all reject). -/
def canProceed (s : ModalState) : Bool :=
  match s.wager with
  | some q => decide (0 < q)
  | none => false

/-- Payload of a call to the `onComplete` prop.  The `txHash` field is `none`
when the callback object carries no such field (the failure call site). -/
structure Completion where
  status : String
  txHash : Option String
deriving DecidableEq, Repr

/-- Handler `beginFlow`: clears the error, and on a successful `onInitiate`
moves to `confirm`; on rejection surfaces the error message (falling back to a
fixed text) and stays in place. -/
def beginFlow (s : ModalState) (outcome : Except (Option String) Unit) : ModalState :=
  let s0 := { s with error := "" }
  if canProceed s0 then
    match outcome with
    | .ok _ => { s0 with step := .confirm }
    | .error m => { s0 with error := m.getD "Failed to initiate match. Please try again." }
  else s0

/-- Handler `confirmDeposit`.  The outcome is the settlement of
`onDeposit(...)`: `.ok tx` resolves with `res` whose `txHash` field is `tx`
(absent when `none`); `.error m` rejects with message `m`.  `mock` is the
random hash `0xmockedtx...` used when `res?.txHash` is falsy.  Crucially, the
success call to `onComplete` passes the closure value of `txHash` — the state
field as it was when the handler started — not the hash just stored. -/
def confirmDeposit (s : ModalState) (outcome : Except (Option String) (Option String))
    (mock : String) : ModalState × List Completion :=
  let s1 := { s with error := "", step := Step.pending }
  match outcome with
  | .ok resTx =>
      let h := match resTx with
        | some t => if t = "" then mock else t
        | none => mock
      ({ s1 with txHash := h, step := .success },
        [{ status := "success", txHash := some s.txHash }])
  | .error m =>
      let msg := m.getD "The transaction failed or was rejected."
      ({ s1 with step := .failure, error := msg },
        [{ status := "failure", txHash := none }])

/-- Handler `restart` (the Retry button): back to `review`, clearing error and
transaction hash. -/
def restart (s : ModalState) : ModalState :=
  { s with step := .review, error := "", txHash := "" }

/-- User-driven events of one opened modal session.  Async handlers carry the
settlement of the awaited operation. -/
inductive Event
  | openModal (p : Props)
  | setWager (raw : Option ℚ)
  | beginFlowEv (outcome : Except (Option String) Unit)
  | confirmDepositEv (outcome : Except (Option String) (Option String)) (mock : String)
  | restartEv
deriving Repr

/-- One atomic event of the modal.  Each handler fires only when its button is
rendered and enabled in the current state (`Continue` only in `review` with a
connected wallet and a valid wager, `Confirm Deposit` only in `confirm`,
`Retry` only in `failure`; during `pending` the primary button has no
handler). -/
def stepModal (connected : Bool) (s : ModalState) : Event → ModalState × List Completion
  | .openModal p => (initModalState p, [])
  | .setWager raw => ({ s with wager := raw }, [])
  | .beginFlowEv outcome =>
      if s.step = Step.review ∧ connected = true ∧ canProceed s = true then
        (beginFlow s outcome, [])
      else (s, [])
  | .confirmDepositEv outcome mock =>
      if s.step = Step.confirm then confirmDeposit s outcome mock else (s, [])
  | .restartEv =>
      if s.step = Step.failure then (restart s, []) else (s, [])

/-- Run a session: fold the events, collecting every `onComplete` invocation
in order. -/
def runModal (connected : Bool) (s : ModalState) : List Event → ModalState × List Completion
  | [] => (s, [])
  | e :: es =>
      let r1 := stepModal connected s e
      let r2 := runModal connected r1.1 es
      (r2.1, r1.2 ++ r2.2)

/-- Primary action button rendered next to Cancel/Close. -/
inductive PrimaryAction
  | connectWallet
  | continueBtn
  | confirmBtn
  | processingBtn
  | retryBtn
  | doneBtn
deriving DecidableEq, Repr

/-- Which primary action the modal renders, from the JSX branches on `step`
and `isConnected`. -/
def primaryAction (connected : Bool) (s : ModalState) : PrimaryAction :=
  match s.step with
  | .review => if connected then .continueBtn else .connectWallet
  | .confirm => .confirmBtn
  | .pending => .processingBtn
  | .failure => .retryBtn
  | .success => .doneBtn

/-- Handlers attached via `onClick` on the rendered buttons. -/
inductive HandlerCall
  | connectCall
  | beginFlowCall
  | confirmDepositCall
  | restartCall
  | closeCall
deriving DecidableEq, Repr

/-- Handler invocations produced by one click on a primary action button.  The
`Processing…` button has no `onClick`. -/
def onClickOf : PrimaryAction → List HandlerCall
  | .connectWallet => [.connectCall]
  | .continueBtn => [.beginFlowCall]
  | .confirmBtn => [.confirmDepositCall]
  | .processingBtn => []
  | .retryBtn => [.restartCall]
  | .doneBtn => [.closeCall]

/-- The non-blocking warning alert: rendered iff the wallet is not connected,
with this fixed text. -/
def walletWarning (connected : Bool) : Option String :=
  if connected then none else some "You must connect your Ethereum wallet to continue."

/-- Text rendered by `StateIndicator` for the current step (`none` when it
renders nothing).  In `success`, a non-empty stored hash is truncated with
`txHash.slice(0, 18)`. -/
def stateIndicatorText (s : ModalState) : Option String :=
  match s.step with
  | .pending => some "Transaction submitted. Waiting for confirmation…"
  | .success =>
      some ("Deposit confirmed. Tx: " ++
        (if s.txHash = "" then "N/A" else s.txHash.take 18 ++ "…"))
  | .failure => some "Transaction failed or was rejected. Please try again."
  | _ => none

end Escrow

namespace Wallet

/-- JavaScript error value with the optional `code` and `message` fields read
by the catch blocks. -/
structure JsErr where
  code : Option Int
  message : Option String
deriving DecidableEq, Repr

/-- Error text chosen by the catch block of `connect`:
`e?.code === 4001` yields the rejection text, otherwise
`e?.message` with the generic connect-failure text as fallback. -/
def connectErrorMessage (e : JsErr) : String :=
  if e.code = some 4001 then "Connection request rejected."
  else e.message.getD "Failed to connect wallet."

/-- Address derived from an accounts array: empty for an empty array,
otherwise `ethers.utils.getAddress(accounts[0])`, with the checksum
normalisation abstracted as `normalize`. -/
def addrFromAccounts (normalize : String → String) : List String → String
  | [] => ""
  | a :: _ => normalize a

/-- State of the guarded hook revision (the one declaring
`isManuallyConnecting`): the React state fields plus the ref flag. -/
structure GState where
  address : String
  chainId : String
  connecting : Bool
  error : String
  isManuallyConnecting : Bool
deriving DecidableEq, Repr

/-- Hook state at mount. -/
def initGState : GState :=
  { address := "", chainId := "", connecting := false, error := "",
    isManuallyConnecting := false }

/-- Events of the guarded revision.  `connect` has a single suspension point
(the awaited `Promise.all`), so it splits into a start event (the synchronous
prefix) and a settlement event (resolution or rejection plus the `finally`
block).  `initSettle` is the settlement of the mount-time passive
`Promise.all` of `eth_accounts`/`eth_chainId` (`none` when it rejected, which
the code swallows silently). -/
inductive GEvent
  | connectStart (providerPresent : Bool)
  | connectSettle (outcome : Except JsErr (List String × String))
  | initSettle (outcome : Option (List String × String))
deriving Repr

/-- One atomic event of the guarded revision. -/
def stepG (normalize : String → String) (s : GState) : GEvent → GState
  | .connectStart present =>
      if present then
        { s with error := "", connecting := true, isManuallyConnecting := true }
      else
        { s with
            error := "No Ethereum wallet detected. Please install MetaMask.",
            connecting := false, isManuallyConnecting := false }
  | .connectSettle outcome =>
      if s.isManuallyConnecting then
        match outcome with
        | .ok (accounts, id) =>
            { s with
                address := addrFromAccounts normalize accounts,
                chainId := id, connecting := false, isManuallyConnecting := false }
        | .error e =>
            { s with
                error := connectErrorMessage e,
                connecting := false, isManuallyConnecting := false }
      else s
  | .initSettle outcome =>
      match outcome with
      | none => s
      | some (accounts, id) =>
          if s.isManuallyConnecting then s
          else
            let s1 := match accounts with
              | [] => s
              | a :: _ => { s with address := normalize a }
            if id ≠ "" then { s1 with chainId := id } else s1

/-- Run a sequence of guarded-revision events. -/
def runG (normalize : String → String) (s : GState) : List GEvent → GState
  | [] => s
  | e :: es => runG normalize (stepG normalize s e) es

/-- State of the unguarded hook revision (React state fields only; it has no
arbitration flag). -/
structure UState where
  address : String
  chainId : String
  connecting : Bool
  error : String
deriving DecidableEq, Repr

/-- Hook state at mount. -/
def initUState : UState :=
  { address := "", chainId := "", connecting := false, error := "" }

/-- Events of the unguarded revision.  Its `connect` awaits
`eth_requestAccounts` and then `eth_chainId`, so it splits into three events;
on a rejection of the first await the second is never issued and the `finally`
block runs.  The passive mount-time read runs `readAccounts` then `readChain`,
each settling independently (`none` = rejection, swallowed with a warning). -/
inductive UEvent
  | connectStart (providerPresent : Bool)
  | connectAccountsSettle (outcome : Except JsErr (List String))
  | connectChainSettle (outcome : Except JsErr String)
  | initAccountsSettle (outcome : Option (List String))
  | initChainSettle (outcome : Option String)
deriving Repr

/-- One atomic event of the unguarded revision. -/
def stepU (normalize : String → String) (s : UState) : UEvent → UState
  | .connectStart present =>
      if present then { s with error := "", connecting := true }
      else
        { s with
            error := "No Ethereum wallet detected. Please install MetaMask.",
            connecting := false }
  | .connectAccountsSettle outcome =>
      match outcome with
      | .ok accounts =>
          match accounts with
          | [] => s
          | a :: _ => { s with address := normalize a }
      | .error e => { s with error := connectErrorMessage e, connecting := false }
  | .connectChainSettle outcome =>
      match outcome with
      | .ok id => { s with chainId := id, connecting := false }
      | .error e => { s with error := connectErrorMessage e, connecting := false }
  | .initAccountsSettle outcome =>
      match outcome with
      | some (a :: _) => { s with address := normalize a }
      | _ => s
  | .initChainSettle outcome =>
      match outcome with
      | some id => { s with chainId := id }
      | none => s

/-- Run a sequence of unguarded-revision events. -/
def runU (normalize : String → String) (s : UState) : List UEvent → UState
  | [] => s
  | e :: es => runU normalize (stepU normalize s e) es

end Wallet

namespace WagerFilterC

/-- A JavaScript number other than `NaN`: a finite rational or a signed
infinity (`parseFloat` can produce `Infinity`). -/
inductive JSNum
  | fin (q : ℚ)
  | pinf
  | ninf
deriving DecidableEq, Repr

/-- Content of a bound input field: either a stored number (the handlers only
ever store finite clamped values) or raw typed text, represented by the result
of `parseFloat` on it (`none` when that is `NaN`). -/
inductive Content
  | num (q : ℚ)
  | txt (p : Option JSNum)
deriving DecidableEq, Repr

/-- Function `parseMaybeNumber`: a stored finite number passes through
(`Number.isFinite(val) ? val : null`); raw text goes through `parseFloat`
with a `Number.isNaN` check, so `Infinity` text is returned but `NaN` becomes
`null`. -/
def parseMaybeNumber : Content → Option JSNum
  | .num q => some (.fin q)
  | .txt p => p

/-- The configured global bounds: the `min`/`max` props (defaults 0.01
and 5). -/
structure Bounds where
  min : ℚ
  max : ℚ
deriving DecidableEq, Repr

/-- A min/max pair as emitted through `onChange` and kept in
`lastEmittedRef`. -/
structure MinMax where
  min : ℚ
  max : ℚ
deriving DecidableEq, Repr

/-- Function `clamp`: `if (val < lo) return lo; if (val > hi) return hi;
return val`. -/
def clamp (v : JSNum) (lo hi : ℚ) : ℚ :=
  match v with
  | .fin q => if q < lo then lo else if hi < q then hi else q
  | .pinf => hi
  | .ninf => lo

/-- The `local` state pair (field contents of the two inputs). -/
structure LocalPair where
  min : Content
  max : Content
deriving DecidableEq, Repr

/-- Component state: the `local` pair plus `lastEmittedRef.current`. -/
structure FilterState where
  loc : LocalPair
  lastEmitted : MinMax
deriving DecidableEq, Repr

/-- Initial state (and the state after the sync effect): both `local` and
`lastEmittedRef` hold `value?.min ?? min` / `value?.max ?? max`. -/
def initFilterState (value : Option MinMax) (cfg : Bounds) : FilterState :=
  let v : MinMax :=
    { min := (value.map MinMax.min).getD cfg.min,
      max := (value.map MinMax.max).getD cfg.max }
  { loc := { min := .num v.min, max := .num v.max }, lastEmitted := v }

/-- Function `emitIfValidAndChanged`, given the pair to emit and the last
emitted pair: emit only on an actual change.  Its `typeof`/`Number.isFinite`
validity guard is represented by the argument type: every call site passes a
pair of finite numbers (clamped values or preset constants). -/
def emitIfValidAndChanged (next : MinMax) (lastEmitted : MinMax) : Option MinMax :=
  if lastEmitted.min ≠ next.min ∨ lastEmitted.max ≠ next.max then some next else none

/-- Shared tail of the handlers: `setLocal(next)` followed by
`emitIfValidAndChanged(next)`, which updates `lastEmittedRef` exactly when it
emits. -/
def emitAndUpdate (s : FilterState) (next : MinMax) : FilterState × Option MinMax :=
  let em := emitIfValidAndChanged next s.lastEmitted
  ({ loc := { min := .num next.min, max := .num next.max },
     lastEmitted := match em with | some p => p | none => s.lastEmitted }, em)

/-- Handler `handleMinChange`: unparsable input only updates `local`;
otherwise the edited bound is clamped, and if the other field is parsable the
pair is coerced (`if (nextMin > nextMax) nextMax = nextMin`) and offered for
emission. -/
def handleMinChange (cfg : Bounds) (s : FilterState) (raw : Content) :
    FilterState × Option MinMax :=
  match parseMaybeNumber raw with
  | none => ({ s with loc := { s.loc with min := raw } }, none)
  | some parsedMin =>
      let nextMin : ℚ := clamp parsedMin cfg.min cfg.max
      match parseMaybeNumber s.loc.max with
      | none => ({ s with loc := { s.loc with min := .num nextMin } }, none)
      | some parsedMax =>
          let nextMax0 : ℚ := clamp parsedMax cfg.min cfg.max
          let nextMax : ℚ := if nextMax0 < nextMin then nextMin else nextMax0
          emitAndUpdate s { min := nextMin, max := nextMax }

/-- Handler `handleMaxChange`, symmetric to `handleMinChange`
(`if (nextMax < nextMin) nextMin = nextMax`). -/
def handleMaxChange (cfg : Bounds) (s : FilterState) (raw : Content) :
    FilterState × Option MinMax :=
  match parseMaybeNumber raw with
  | none => ({ s with loc := { s.loc with max := raw } }, none)
  | some parsedMax =>
      let nextMax : ℚ := clamp parsedMax cfg.min cfg.max
      match parseMaybeNumber s.loc.min with
      | none => ({ s with loc := { s.loc with max := .num nextMax } }, none)
      | some parsedMin =>
          let nextMin0 : ℚ := clamp parsedMin cfg.min cfg.max
          let nextMin : ℚ := if nextMax < nextMin0 then nextMax else nextMin0
          emitAndUpdate s { min := nextMin, max := nextMax }

/-- Handler `handleBlurCoerceAndEmit`: parse both fields, fall back to the
clamped last-emitted value for an unparsable field, clamp, coerce the order,
and offer for emission. -/
def handleBlurCoerceAndEmit (cfg : Bounds) (s : FilterState) :
    FilterState × Option MinMax :=
  let pMin : JSNum := match parseMaybeNumber s.loc.min with
    | some v => v
    | none => .fin (clamp (.fin s.lastEmitted.min) cfg.min cfg.max)
  let pMax : JSNum := match parseMaybeNumber s.loc.max with
    | some v => v
    | none => .fin (clamp (.fin s.lastEmitted.max) cfg.min cfg.max)
  let nextMin : ℚ := clamp pMin cfg.min cfg.max
  let nextMax0 : ℚ := clamp pMax cfg.min cfg.max
  let nextMax : ℚ := if nextMax0 < nextMin then nextMin else nextMax0
  emitAndUpdate s { min := nextMin, max := nextMax }

/-- The hard-coded preset list: `Any`, `≤ 0.1 ETH`, `0.1 – 0.5 ETH`,
`0.5 – 1.0 ETH`, `≥ 1.0 ETH`.  Only `Any` is built purely from the configured
bounds; the others mix in the constants 0.1, 0.5 and 1.0 unclamped. -/
def presets (cfg : Bounds) : List MinMax :=
  [ { min := cfg.min, max := cfg.max },
    { min := cfg.min, max := mkRat 1 10 },
    { min := mkRat 1 10, max := mkRat 1 2 },
    { min := mkRat 1 2, max := 1 },
    { min := 1, max := cfg.max } ]

/-- Handler `applyPreset`: directly replaces both bounds with the preset pair
and offers it for emission (no clamping, no ordering coercion). -/
def applyPreset (s : FilterState) (p : MinMax) : FilterState × Option MinMax :=
  emitAndUpdate s p

/-- User events on the filter: editing a field, blurring (both blur handlers
delegate to the same function), or clicking the i-th preset. -/
inductive FEvent
  | minChange (raw : Content)
  | maxChange (raw : Content)
  | blurEv
  | presetClick (i : ℕ)
deriving Repr

/-- One user event; the second component is the `onChange` emission it causes,
if any. -/
def stepFilter (cfg : Bounds) (s : FilterState) : FEvent → FilterState × Option MinMax
  | .minChange raw => handleMinChange cfg s raw
  | .maxChange raw => handleMaxChange cfg s raw
  | .blurEv => handleBlurCoerceAndEmit cfg s
  | .presetClick i =>
      match (presets cfg)[i]? with
      | some p => applyPreset s p
      | none => (s, none)

end WagerFilterC

namespace Dashboard

/-- Environment of one `handleDeposit` call from the profiles dashboard:
wallet flags, the `matchId` stored by `handleInitiate` (`none` when absent),
and the settlements of `sendEscrowDeposit` (resolving an object whose
`txHash` field is the inner option) and `apiConfirmDeposit`. -/
structure DepositEnv where
  isConnected : Bool
  signerPresent : Bool
  matchId : Option Int
  sendOutcome : Except String (Option String)
  confirmOutcome : Except String Unit
deriving Repr

/-- Observable outcome of `handleDeposit`: its settlement (resolving an object
whose `txHash` field is the inner option), whether the backend confirmation
call was issued, and whether the `console.warn` branch ran. -/
structure DepositRun where
  result : Except String (Option String)
  backendCalled : Bool
  warned : Bool
deriving Repr

/-- JavaScript truthiness of the stored `matchId` (a number: `0`, `null` and
`undefined` are falsy). -/
def matchIdTruthy : Option Int → Bool
  | some n => decide (n ≠ 0)
  | none => false

/-- JavaScript truthiness of `depositRes?.txHash` (a string: absent or empty
is falsy). -/
def txHashTruthy : Option String → Bool
  | some h => decide (h ≠ "")
  | none => false

/-- Callback `handleDeposit` (src/unnamed/part_007, lines 1126–1147): requires
a connected wallet with a signer, sends the escrow deposit, then — only when
both `matchId` and the returned hash are truthy — notifies the backend,
swallowing a backend failure with a warning, and resolves with the hash. -/
def handleDeposit (env : DepositEnv) : DepositRun :=
  if env.isConnected = false ∨ env.signerPresent = false then
    { result := .error "Wallet not connected. Please connect your wallet.",
      backendCalled := false, warned := false }
  else
    match env.sendOutcome with
    | .error e => { result := .error e, backendCalled := false, warned := false }
    | .ok tx =>
        if matchIdTruthy env.matchId = true ∧ txHashTruthy tx = true then
          match env.confirmOutcome with
          | .ok _ => { result := .ok tx, backendCalled := true, warned := false }
          | .error _ => { result := .ok tx, backendCalled := true, warned := true }
        else { result := .ok tx, backendCalled := false, warned := false }

end Dashboard

namespace Blockchain

/-- A JavaScript value passed as the `wagerId` parameter: `undefined`
(missing), a number (`none` inside stands for `NaN` or an infinity), or a
string represented by the finite value `Number(s)` coerces it to, if any. -/
inductive JsVal
  | undef
  | num (q : Option ℚ)
  | str (numberOf : Option ℚ)
deriving DecidableEq, Repr

/-- Coercion used by `Number.isFinite(Number(wagerId))`: the finite number a
value coerces to, when there is one. -/
def toFiniteNumber : JsVal → Option ℚ
  | .undef => none
  | .num q => q
  | .str p => p

/-- `ethers.utils.parseEther(String(amountEth))`: the amount in wei when the
decimal has at most 18 fractional digits, failing otherwise.  Written over
the integers so that `amountEth * 10^18` is produced exactly when the
denominator divides `10^18`. -/
def parseEther (amountEth : ℚ) : Option ℤ :=
  if (10 ^ 18 : ℤ) % (amountEth.den : ℤ) = 0 then
    some (amountEth.num * ((10 ^ 18 : ℤ) / (amountEth.den : ℤ)))
  else none

/-- One `contract.deposit(numericWagerId, { value })` call as issued. -/
structure DepositCall where
  wagerId : ℚ
  valueWei : ℤ
deriving DecidableEq, Repr

/-- Environment of a `BlockchainClient.deposit` call: whether a signer is set,
the configured escrow address, and the settlement of the contract call plus
`tx.wait()` (resolving the final transaction hash). -/
structure BcEnv where
  signerPresent : Bool
  escrowAddress : String
  txOutcome : Except String String
deriving Repr

/-- Observable outcome of `BlockchainClient.deposit`: the contract calls
issued and the settlement. -/
structure DepositResult where
  calls : List DepositCall
  result : Except String String
deriving Repr

/-- Method `BlockchainClient.deposit`
(src/frontend/src/services/blockchain.js, lines 125–149): guards on signer and
escrow address, replaces a `wagerId` that does not coerce to a finite number
by `0`, parses the amount, and issues the contract call. -/
def deposit (env : BcEnv) (wagerId : JsVal) (amountEth : ℚ) : DepositResult :=
  if env.signerPresent = false then
    { calls := [], result := .error "No signer found. Please connect your wallet." }
  else if env.escrowAddress = "" then
    { calls := [],
      result := .error "Missing REACT_APP_ESCROW_ADDRESS. Set it in the environment." }
  else
    let numericWagerId : ℚ := (toFiniteNumber wagerId).getD 0
    match parseEther amountEth with
    | none => { calls := [], result := .error "invalid decimal value" }
    | some value =>
        { calls := [{ wagerId := numericWagerId, valueWei := value }],
          result := env.txOutcome }

end Blockchain

/-- C5: whenever the open flag of the escrow modal transitions from false to true,
the reset effect puts the state machine back in the `review` step and resets
the error message, transaction hash and wager amount to the defaults derived
from the props — in particular, reopening after a prior failure clears the
previous error and transaction id, since the pre-open state is arbitrary
here. -/
theorem escrow_reset_on_open (connected : Bool) (s : Escrow.ModalState)
    (p : Escrow.Props) :
    Escrow.stepModal connected s (.openModal p)
      = ({ step := .review, error := "", txHash := "",
           wager := some (Escrow.defaultWagerOf p) }, []) := rfl

/-- C7: with the modal open in the `review` step and the wallet disconnected,
the non-blocking warning alert about the wallet-connection requirement is
rendered, the primary action is a Connect button rather than Continue, and one
click on it invokes the connect handler exactly once. -/
theorem escrow_review_disconnected_connect (s : Escrow.ModalState)
    (hstep : s.step = Escrow.Step.review) :
    Escrow.walletWarning false
        = some "You must connect your Ethereum wallet to continue." ∧
    Escrow.primaryAction false s = Escrow.PrimaryAction.connectWallet ∧
    Escrow.primaryAction false s ≠ Escrow.PrimaryAction.continueBtn ∧
    (Escrow.onClickOf (Escrow.primaryAction false s)).count
        Escrow.HandlerCall.connectCall = 1 := by
  simp [Escrow.walletWarning, Escrow.primaryAction, hstep, Escrow.onClickOf]

/-- Closed instance of `escrow_review_disconnected_connect` at a freshly
opened modal. -/
theorem escrow_review_disconnected_connect_witness :
    Escrow.walletWarning false
        = some "You must connect your Ethereum wallet to continue." ∧
    Escrow.primaryAction false
        (Escrow.initModalState { defaultWager := some 1, opponentWagerEth := none })
        = Escrow.PrimaryAction.connectWallet ∧
    Escrow.primaryAction false
        (Escrow.initModalState { defaultWager := some 1, opponentWagerEth := none })
        ≠ Escrow.PrimaryAction.continueBtn ∧
    (Escrow.onClickOf (Escrow.primaryAction false
        (Escrow.initModalState { defaultWager := some 1, opponentWagerEth := none }))).count
        Escrow.HandlerCall.connectCall = 1 :=
  escrow_review_disconnected_connect _ (by decide)

/-- C10: in `BlockchainClient.deposit`, with a signer and a non-empty escrow
address, a `wagerId` that is missing or does not coerce to a finite number is
silently replaced by `0`: the contract call is issued with wager id `0` and
the call does not fail on account of the wager id. -/
theorem deposit_coerces_bad_wagerId_to_zero (env : Blockchain.BcEnv)
    (w : Blockchain.JsVal) (amount : ℚ) (v : ℤ)
    (hs : env.signerPresent = true) (ha : env.escrowAddress ≠ "")
    (hw : Blockchain.toFiniteNumber w = none)
    (hv : Blockchain.parseEther amount = some v) :
    Blockchain.deposit env w amount
      = { calls := [{ wagerId := 0, valueWei := v }], result := env.txOutcome } := by
  simp [Blockchain.deposit, hs, ha, hw, hv]

/-- Closed instance of `deposit_coerces_bad_wagerId_to_zero`: a missing
`wagerId` with amount 0.5 ETH issues the contract call with wager id 0. -/
theorem deposit_coerces_bad_wagerId_to_zero_witness :
    Blockchain.deposit
        { signerPresent := true, escrowAddress := "0xEscrow",
          txOutcome := .ok "0xhash" }
        Blockchain.JsVal.undef (mkRat 1 2)
      = { calls := [{ wagerId := 0, valueWei := 500000000000000000 }],
          result := .ok "0xhash" } :=
  deposit_coerces_bad_wagerId_to_zero _ _ _ _ rfl (by decide) rfl (by decide)

/-- C6: in both revisions of the wallet hook, `connect()` with no injected
provider sets the no-wallet error, and an account request rejecting with an
error whose `code` is 4001 sets the error `Connection request rejected.`; in
both failure cases an initially empty address stays empty, so the connection
state remains disconnected. -/
theorem connect_failure_paths (normalize : String → String)
    (sG : Wallet.GState) (sU : Wallet.UState) (e : Wallet.JsErr)
    (hG : sG.address = "") (hU : sU.address = "") (hcode : e.code = some 4001) :
    (Wallet.stepG normalize sG (.connectStart false)).error
        = "No Ethereum wallet detected. Please install MetaMask." ∧
    (Wallet.stepG normalize sG (.connectStart false)).address = "" ∧
    (Wallet.runG normalize sG [.connectStart true, .connectSettle (.error e)]).error
        = "Connection request rejected." ∧
    (Wallet.runG normalize sG [.connectStart true, .connectSettle (.error e)]).address
        = "" ∧
    (Wallet.stepU normalize sU (.connectStart false)).error
        = "No Ethereum wallet detected. Please install MetaMask." ∧
    (Wallet.stepU normalize sU (.connectStart false)).address = "" ∧
    (Wallet.runU normalize sU
        [.connectStart true, .connectAccountsSettle (.error e)]).error
        = "Connection request rejected." ∧
    (Wallet.runU normalize sU
        [.connectStart true, .connectAccountsSettle (.error e)]).address = "" := by
  simp [Wallet.stepG, Wallet.stepU, Wallet.runG, Wallet.runU,
    Wallet.connectErrorMessage, hG, hU, hcode]

/-- Closed instance of `connect_failure_paths` at the mount states and a
MetaMask-style 4001 rejection error. -/
theorem connect_failure_paths_witness :
    (Wallet.stepG id Wallet.initGState (.connectStart false)).error
        = "No Ethereum wallet detected. Please install MetaMask." ∧
    (Wallet.stepG id Wallet.initGState (.connectStart false)).address = "" ∧
    (Wallet.runG id Wallet.initGState
        [.connectStart true,
         .connectSettle (.error { code := some 4001, message := some "User rejected the request." })]).error
        = "Connection request rejected." ∧
    (Wallet.runG id Wallet.initGState
        [.connectStart true,
         .connectSettle (.error { code := some 4001, message := some "User rejected the request." })]).address
        = "" ∧
    (Wallet.stepU id Wallet.initUState (.connectStart false)).error
        = "No Ethereum wallet detected. Please install MetaMask." ∧
    (Wallet.stepU id Wallet.initUState (.connectStart false)).address = "" ∧
    (Wallet.runU id Wallet.initUState
        [.connectStart true,
         .connectAccountsSettle (.error { code := some 4001, message := some "User rejected the request." })]).error
        = "Connection request rejected." ∧
    (Wallet.runU id Wallet.initUState
        [.connectStart true,
         .connectAccountsSettle (.error { code := some 4001, message := some "User rejected the request." })]).address
        = "" :=
  connect_failure_paths id Wallet.initGState Wallet.initUState
    { code := some 4001, message := some "User rejected the request." }
    rfl rfl rfl

/-- C9: when the on-chain escrow deposit succeeds with hash `h` but the
backend deposit-confirmation call throws, `handleDeposit` still resolves with
the transaction hash and the warning branch runs (the backend call was
attempted), and the escrow modal, whose `onDeposit` settlement this is, moves
to the `success` step recording `h`. -/
theorem partial_success_nonfatal (mid : ℤ) (h errMsg mock : String)
    (s : Escrow.ModalState)
    (hmid : mid ≠ 0) (hh : h ≠ "") (hstep : s.step = Escrow.Step.confirm) :
    (Dashboard.handleDeposit
        { isConnected := true, signerPresent := true, matchId := some mid,
          sendOutcome := .ok (some h), confirmOutcome := .error errMsg }).result
        = .ok (some h) ∧
    (Dashboard.handleDeposit
        { isConnected := true, signerPresent := true, matchId := some mid,
          sendOutcome := .ok (some h), confirmOutcome := .error errMsg }).backendCalled
        = true ∧
    (Dashboard.handleDeposit
        { isConnected := true, signerPresent := true, matchId := some mid,
          sendOutcome := .ok (some h), confirmOutcome := .error errMsg }).warned
        = true ∧
    (Escrow.stepModal true s (.confirmDepositEv (.ok (some h)) mock)).1.step
        = Escrow.Step.success ∧
    (Escrow.stepModal true s (.confirmDepositEv (.ok (some h)) mock)).1.txHash = h := by
  simp [Dashboard.handleDeposit, Dashboard.matchIdTruthy, Dashboard.txHashTruthy,
    hmid, hh, Escrow.stepModal, hstep, Escrow.confirmDeposit]

/-- Closed instance of `partial_success_nonfatal` with match id 42, hash
`0xabc123` and a failing backend call. -/
theorem partial_success_nonfatal_witness :
    (Dashboard.handleDeposit
        { isConnected := true, signerPresent := true, matchId := some 42,
          sendOutcome := .ok (some "0xabc123"),
          confirmOutcome := .error "backend unreachable" }).result
        = .ok (some "0xabc123") ∧
    (Dashboard.handleDeposit
        { isConnected := true, signerPresent := true, matchId := some 42,
          sendOutcome := .ok (some "0xabc123"),
          confirmOutcome := .error "backend unreachable" }).backendCalled = true ∧
    (Dashboard.handleDeposit
        { isConnected := true, signerPresent := true, matchId := some 42,
          sendOutcome := .ok (some "0xabc123"),
          confirmOutcome := .error "backend unreachable" }).warned = true ∧
    (Escrow.stepModal true
        { step := .confirm, error := "", txHash := "", wager := some 1 }
        (.confirmDepositEv (.ok (some "0xabc123")) "0xmockedtx00")).1.step
        = Escrow.Step.success ∧
    (Escrow.stepModal true
        { step := .confirm, error := "", txHash := "", wager := some 1 }
        (.confirmDepositEv (.ok (some "0xabc123")) "0xmockedtx00")).1.txHash
        = "0xabc123" :=
  partial_success_nonfatal 42 "0xabc123" "backend unreachable" "0xmockedtx00"
    { step := .confirm, error := "", txHash := "", wager := some 1 }
    (by decide) (by decide) rfl

/-- C1: evaluation of the confirm → pending → success flow at the spec
scenario (deposit resolving `0xabc123`).  The flow ends in `success`, the
stored transaction identifier is the resolved hash and the state indicator
shows it truncated; but the completion callback is invoked with the stale
closure value of `txHash` — the empty string — rather than the recorded hash,
because the success call site passes the pre-update `txHash` state to
`onComplete`. -/
theorem escrow_success_callback_stale_hash :
    (Escrow.runModal true
        (Escrow.initModalState
          { defaultWager := some (mkRat 3 4), opponentWagerEth := some (mkRat 3 4) })
        [.beginFlowEv (.ok ()),
         .confirmDepositEv (.ok (some "0xabc123")) "0xmockedtx00"]).1.step
        = Escrow.Step.success ∧
    (Escrow.runModal true
        (Escrow.initModalState
          { defaultWager := some (mkRat 3 4), opponentWagerEth := some (mkRat 3 4) })
        [.beginFlowEv (.ok ()),
         .confirmDepositEv (.ok (some "0xabc123")) "0xmockedtx00"]).1.txHash
        = "0xabc123" ∧
    Escrow.stateIndicatorText
        (Escrow.runModal true
          (Escrow.initModalState
            { defaultWager := some (mkRat 3 4), opponentWagerEth := some (mkRat 3 4) })
          [.beginFlowEv (.ok ()),
           .confirmDepositEv (.ok (some "0xabc123")) "0xmockedtx00"]).1
        = some "Deposit confirmed. Tx: 0xabc123…" ∧
    (Escrow.runModal true
        (Escrow.initModalState
          { defaultWager := some (mkRat 3 4), opponentWagerEth := some (mkRat 3 4) })
        [.beginFlowEv (.ok ()),
         .confirmDepositEv (.ok (some "0xabc123")) "0xmockedtx00"]).2
        = [{ status := "success", txHash := some "" }] ∧
    ([{ status := "success", txHash := some "" }] : List Escrow.Completion)
        ≠ [{ status := "success", txHash := some "0xabc123" }] := by decide

/-- Unfolding of one step of a modal session run. -/
theorem runModal_cons (connected : Bool) (s : Escrow.ModalState)
    (e : Escrow.Event) (es : List Escrow.Event) :
    Escrow.runModal connected s (e :: es)
      = ((Escrow.runModal connected (Escrow.stepModal connected s e).1 es).1,
         (Escrow.stepModal connected s e).2 ++
           (Escrow.runModal connected (Escrow.stepModal connected s e).1 es).2) := rfl

/-- One modal event causes at most one `onComplete` invocation. -/
theorem stepModal_completions_le_one (connected : Bool) (s : Escrow.ModalState)
    (e : Escrow.Event) : ((Escrow.stepModal connected s e).2).length ≤ 1 := by
  cases e with
  | openModal p => simp [Escrow.stepModal]
  | setWager raw => simp [Escrow.stepModal]
  | beginFlowEv outcome =>
      simp only [Escrow.stepModal]
      split <;> simp
  | confirmDepositEv outcome mock =>
      simp only [Escrow.stepModal]
      split
      · cases outcome <;> simp [Escrow.confirmDeposit]
      · simp
  | restartEv =>
      simp only [Escrow.stepModal]
      split <;> simp

/-- Every `onComplete` invocation caused by one modal event carries status
`success` or `failure`. -/
theorem stepModal_status_valid (connected : Bool) (s : Escrow.ModalState)
    (e : Escrow.Event) :
    ∀ c ∈ (Escrow.stepModal connected s e).2,
      c.status = "success" ∨ c.status = "failure" := by
  intro c hc
  cases e with
  | openModal p => simp [Escrow.stepModal] at hc
  | setWager raw => simp [Escrow.stepModal] at hc
  | beginFlowEv outcome =>
      simp only [Escrow.stepModal] at hc
      split at hc <;> simp at hc
  | confirmDepositEv outcome mock =>
      simp only [Escrow.stepModal] at hc
      split at hc
      · cases outcome with
        | ok tx =>
            simp [Escrow.confirmDeposit] at hc
            simp [hc]
        | error m =>
            simp [Escrow.confirmDeposit] at hc
            simp [hc]
      · simp at hc
  | restartEv =>
      simp only [Escrow.stepModal] at hc
      split at hc <;> simp at hc

/-- C2 (amended): within one opened escrow-modal session, every event causes
at most one `onComplete` invocation — so the callback fires at most once per
deposit attempt — and every invocation carries status `success` or `failure`.
The per-session at-most-once bound of the original claim fails because an
explicit retry after a failure permits a second deposit attempt (see the
counterexample). -/
theorem escrow_onComplete_statuses (connected : Bool) (s : Escrow.ModalState)
    (es : List Escrow.Event) :
    (∀ e : Escrow.Event, ((Escrow.stepModal connected s e).2).length ≤ 1) ∧
    (∀ c ∈ (Escrow.runModal connected s es).2,
        c.status = "success" ∨ c.status = "failure") := by
  refine ⟨fun e => stepModal_completions_le_one connected s e, ?_⟩
  induction es generalizing s with
  | nil => simp [Escrow.runModal]
  | cons e es ih =>
      intro c hc
      rw [runModal_cons] at hc
      rcases List.mem_append.mp hc with h1 | h2
      · exact stepModal_status_valid connected s e c h1
      · exact ih _ c h2

/-- Closed instance of `escrow_onComplete_statuses` extracting the status of a
concrete failure invocation. -/
theorem escrow_onComplete_statuses_witness :
    ({ status := "failure", txHash := none } : Escrow.Completion).status = "success" ∨
    ({ status := "failure", txHash := none } : Escrow.Completion).status = "failure" :=
  (escrow_onComplete_statuses true
      { step := .confirm, error := "", txHash := "", wager := some 1 }
      [.confirmDepositEv (.error none) "0xmockedtx00"]).2
    { status := "failure", txHash := none } (by decide)

/-- Appending event lists composes guarded-revision runs. -/
theorem runG_append (normalize : String → String) (s : Wallet.GState)
    (xs ys : List Wallet.GEvent) :
    Wallet.runG normalize s (xs ++ ys)
      = Wallet.runG normalize (Wallet.runG normalize s xs) ys := by
  induction xs generalizing s with
  | nil => simp [Wallet.runG]
  | cons x xs ih => simp [Wallet.runG, ih]

/-- While the manual-connect flag is set, the guarded revision discards a
passive init settlement entirely. -/
theorem stepG_initSettle_discarded (normalize : String → String)
    (s : Wallet.GState) (h : s.isManuallyConnecting = true)
    (o : Option (List String × String)) :
    Wallet.stepG normalize s (.initSettle o) = s := by
  cases o with
  | none => rfl
  | some p =>
      obtain ⟨accs, id⟩ := p
      simp [Wallet.stepG, h]

/-- A run made only of passive init settlements leaves a state with the
manual-connect flag set unchanged. -/
theorem runG_initSettles_id (normalize : String → String) (s : Wallet.GState)
    (hflag : s.isManuallyConnecting = true) :
    ∀ mids : List Wallet.GEvent,
      (∀ e ∈ mids, ∃ o, e = Wallet.GEvent.initSettle o) →
      Wallet.runG normalize s mids = s := by
  intro mids
  induction mids with
  | nil => intro _; rfl
  | cons e es ih =>
      intro hmids
      obtain ⟨o, rfl⟩ := hmids e (by simp)
      have h1 : Wallet.stepG normalize s (.initSettle o) = s :=
        stepG_initSettle_discarded normalize s hflag o
      calc Wallet.runG normalize s (Wallet.GEvent.initSettle o :: es)
          = Wallet.runG normalize (Wallet.stepG normalize s (.initSettle o)) es := rfl
        _ = Wallet.runG normalize s es := by rw [h1]
        _ = s := ih fun e2 he2 => hmids e2 (by simp [he2])

/-- C3 (amended): in the guarded revision of the hook, every passive
mount-time read that settles while an explicit connect flow is in progress is
discarded (the step leaves the state unchanged), and the final address and
chain id equal the result of the explicit connect call.  The unguarded
revision in the same source file violates the claim; see the
counterexample. -/
theorem guarded_connect_wins_over_passive_reads (normalize : String → String)
    (s : Wallet.GState) (mids : List Wallet.GEvent)
    (accounts : List String) (id : String)
    (hmids : ∀ e ∈ mids, ∃ o, e = Wallet.GEvent.initSettle o) :
    (∀ s2 : Wallet.GState, s2.isManuallyConnecting = true →
        ∀ o, Wallet.stepG normalize s2 (.initSettle o) = s2) ∧
    Wallet.runG normalize s
        (Wallet.GEvent.connectStart true :: mids
          ++ [Wallet.GEvent.connectSettle (.ok (accounts, id))])
      = { address := Wallet.addrFromAccounts normalize accounts, chainId := id,
          connecting := false, error := "", isManuallyConnecting := false } := by
  refine ⟨fun s2 h o => stepG_initSettle_discarded normalize s2 h o, ?_⟩
  have h0 : Wallet.runG normalize s
      (Wallet.GEvent.connectStart true :: mids
        ++ [Wallet.GEvent.connectSettle (.ok (accounts, id))])
      = Wallet.runG normalize (Wallet.stepG normalize s (.connectStart true))
        (mids ++ [Wallet.GEvent.connectSettle (.ok (accounts, id))]) := rfl
  rw [h0, runG_append,
    runG_initSettles_id normalize _ (by simp [Wallet.stepG]) mids hmids]
  simp [Wallet.runG, Wallet.stepG]

/-- Closed instance of `guarded_connect_wins_over_passive_reads`: a stale
passive read settling mid-connect is dropped and the connect result stands. -/
theorem guarded_connect_wins_witness :
    Wallet.runG id Wallet.initGState
        (Wallet.GEvent.connectStart true ::
          [Wallet.GEvent.initSettle (some (["0xbbb2"], "0x5"))]
          ++ [Wallet.GEvent.connectSettle (.ok (["0xaaa1"], "0x1"))])
      = { address := Wallet.addrFromAccounts id ["0xaaa1"], chainId := "0x1",
          connecting := false, error := "", isManuallyConnecting := false } :=
  (guarded_connect_wins_over_passive_reads id Wallet.initGState
      [Wallet.GEvent.initSettle (some (["0xbbb2"], "0x5"))] ["0xaaa1"] "0x1"
      (by intro e he; simp at he; exact ⟨_, he⟩)).2

/-- C3 counterexample: in the unguarded revision, the passive `eth_accounts`
read settles while the connect flow is still in progress (`connecting` is
true, between the address write of connect and its chain-id settlement), its
result is not discarded, and the final address is the stale passive value
rather than the explicit connect result. -/
theorem unguarded_passive_read_overwrites_connect :
    (Wallet.runU id Wallet.initUState
        [.connectStart true, .connectAccountsSettle (.ok ["0xaaa1"])]).connecting
        = true ∧
    (Wallet.runU id Wallet.initUState
        [.connectStart true, .connectAccountsSettle (.ok ["0xaaa1"])]).address
        = "0xaaa1" ∧
    (Wallet.runU id Wallet.initUState
        [.connectStart true, .connectAccountsSettle (.ok ["0xaaa1"]),
         .initAccountsSettle (some ["0xbbb2"]),
         .connectChainSettle (.ok "0x1")]).address
        = "0xbbb2" ∧
    ("0xbbb2" : String) ≠ "0xaaa1" := by decide

/-- A clamped value lies within ordered bounds. -/
theorem clamp_mem (v : WagerFilterC.JSNum) (lo hi : ℚ) (h : lo ≤ hi) :
    lo ≤ WagerFilterC.clamp v lo hi ∧ WagerFilterC.clamp v lo hi ≤ hi := by
  cases v with
  | fin q =>
      by_cases h1 : q < lo
      · simp [WagerFilterC.clamp, h1, h]
      · by_cases h2 : hi < q
        · simp [WagerFilterC.clamp, h1, h2, h]
        · simp only [WagerFilterC.clamp, if_neg h1, if_neg h2]
          exact ⟨le_of_not_lt h1, le_of_not_lt h2⟩
  | pinf => simp [WagerFilterC.clamp, h]
  | ninf => simp [WagerFilterC.clamp, h]

/-- Raising coercion `if (b < a) then a else b` stays within bounds and
dominates `a`. -/
theorem if_raise_bounds (lo hi a b : ℚ) (ha1 : lo ≤ a) (ha2 : a ≤ hi)
    (hb1 : lo ≤ b) (hb2 : b ≤ hi) :
    lo ≤ (if b < a then a else b) ∧ (if b < a then a else b) ≤ hi ∧
      a ≤ (if b < a then a else b) := by
  by_cases h : b < a
  · simp [h, ha1, ha2]
  · simp [h, hb1, hb2, le_of_not_lt h]

/-- Lowering coercion `if (b < a) then b else a` stays within bounds and is
dominated by `b`. -/
theorem if_lower_bounds (lo hi a b : ℚ) (ha1 : lo ≤ a) (ha2 : a ≤ hi)
    (hb1 : lo ≤ b) (hb2 : b ≤ hi) :
    lo ≤ (if b < a then b else a) ∧ (if b < a then b else a) ≤ hi ∧
      (if b < a then b else a) ≤ b := by
  by_cases h : b < a
  · simp [h, hb1, hb2]
  · simp [h, ha1, ha2, le_of_not_lt h]

/-- When the shared emission tail emits a pair, that pair is the offered one,
it differs from the last emitted pair, and it becomes the new last emitted
pair. -/
theorem emitAndUpdate_spec (s : WagerFilterC.FilterState)
    (next p : WagerFilterC.MinMax)
    (h : (WagerFilterC.emitAndUpdate s next).2 = some p) :
    p = next ∧ p ≠ s.lastEmitted ∧
      (WagerFilterC.emitAndUpdate s next).1.lastEmitted = p := by
  have h2 : WagerFilterC.emitIfValidAndChanged next s.lastEmitted = some p := h
  unfold WagerFilterC.emitIfValidAndChanged at h2
  split at h2
  case isTrue hcond =>
    have hpn : next = p := Option.some.inj h2
    subst hpn
    refine ⟨rfl, ?_, ?_⟩
    · intro he
      rcases hcond with h1 | h1
      · exact h1 (by rw [he])
      · exact h1 (by rw [he])
    · simp [WagerFilterC.emitAndUpdate, WagerFilterC.emitIfValidAndChanged, hcond]
  case isFalse => exact absurd h2 (by simp)

/-- Bounds invariant for an emission offered through the min-side coercion
shape (used by the min-change and blur handlers). -/
theorem emit_coerced_raise_invariant (cfg : WagerFilterC.Bounds)
    (s : WagerFilterC.FilterState) (vmin vmax : WagerFilterC.JSNum)
    (p : WagerFilterC.MinMax) (hcfg : cfg.min ≤ cfg.max)
    (hp : (WagerFilterC.emitAndUpdate s
      { min := WagerFilterC.clamp vmin cfg.min cfg.max,
        max := if WagerFilterC.clamp vmax cfg.min cfg.max
                  < WagerFilterC.clamp vmin cfg.min cfg.max
               then WagerFilterC.clamp vmin cfg.min cfg.max
               else WagerFilterC.clamp vmax cfg.min cfg.max }).2 = some p) :
    cfg.min ≤ p.min ∧ p.min ≤ cfg.max ∧ cfg.min ≤ p.max ∧ p.max ≤ cfg.max ∧
      p.min ≤ p.max := by
  obtain ⟨hpn, -, -⟩ := emitAndUpdate_spec _ _ _ hp
  subst hpn
  obtain ⟨hA1, hA2⟩ := clamp_mem vmin cfg.min cfg.max hcfg
  obtain ⟨hB1, hB2⟩ := clamp_mem vmax cfg.min cfg.max hcfg
  obtain ⟨h1, h2, h3⟩ := if_raise_bounds cfg.min cfg.max _ _ hA1 hA2 hB1 hB2
  exact ⟨hA1, hA2, h1, h2, h3⟩

/-- Bounds invariant for an emission offered through the max-side coercion
shape (used by the max-change handler). -/
theorem emit_coerced_lower_invariant (cfg : WagerFilterC.Bounds)
    (s : WagerFilterC.FilterState) (vmin vmax : WagerFilterC.JSNum)
    (p : WagerFilterC.MinMax) (hcfg : cfg.min ≤ cfg.max)
    (hp : (WagerFilterC.emitAndUpdate s
      { min := if WagerFilterC.clamp vmax cfg.min cfg.max
                  < WagerFilterC.clamp vmin cfg.min cfg.max
               then WagerFilterC.clamp vmax cfg.min cfg.max
               else WagerFilterC.clamp vmin cfg.min cfg.max,
        max := WagerFilterC.clamp vmax cfg.min cfg.max }).2 = some p) :
    cfg.min ≤ p.min ∧ p.min ≤ cfg.max ∧ cfg.min ≤ p.max ∧ p.max ≤ cfg.max ∧
      p.min ≤ p.max := by
  obtain ⟨hpn, -, -⟩ := emitAndUpdate_spec _ _ _ hp
  subst hpn
  obtain ⟨hA1, hA2⟩ := clamp_mem vmin cfg.min cfg.max hcfg
  obtain ⟨hB1, hB2⟩ := clamp_mem vmax cfg.min cfg.max hcfg
  obtain ⟨h1, h2, h3⟩ := if_lower_bounds cfg.min cfg.max _ _ hA1 hA2 hB1 hB2
  exact ⟨h1, h2, hB1, hB2, h3⟩

/-- C4 (amended): every min/max pair emitted by an edit or a blur satisfies
min ≤ max with both bounds inside the configured global bounds.  The original
claim also covered preset clicks, which emit the hard-coded preset constants
unclamped and can violate both parts when the configured bounds do not contain
them; see the counterexample. -/
theorem filter_edit_blur_invariant (cfg : WagerFilterC.Bounds)
    (s : WagerFilterC.FilterState) (e : WagerFilterC.FEvent)
    (p : WagerFilterC.MinMax) (hcfg : cfg.min ≤ cfg.max)
    (hev : (∃ raw, e = WagerFilterC.FEvent.minChange raw) ∨
           (∃ raw, e = WagerFilterC.FEvent.maxChange raw) ∨
           e = WagerFilterC.FEvent.blurEv)
    (hp : (WagerFilterC.stepFilter cfg s e).2 = some p) :
    p.min ≤ p.max ∧ cfg.min ≤ p.min ∧ p.min ≤ cfg.max ∧
      cfg.min ≤ p.max ∧ p.max ≤ cfg.max := by
  rcases hev with ⟨raw, rfl⟩ | ⟨raw, rfl⟩ | rfl
  · have hp2 : (WagerFilterC.handleMinChange cfg s raw).2 = some p := hp
    cases hm : WagerFilterC.parseMaybeNumber raw with
    | none => simp [WagerFilterC.handleMinChange, hm] at hp2
    | some parsedMin =>
        cases hx : WagerFilterC.parseMaybeNumber s.loc.max with
        | none => simp [WagerFilterC.handleMinChange, hm, hx] at hp2
        | some parsedMax =>
            simp only [WagerFilterC.handleMinChange, hm, hx] at hp2
            have := emit_coerced_raise_invariant cfg s parsedMin parsedMax p hcfg hp2
            exact ⟨this.2.2.2.2, this.1, this.2.1, this.2.2.1, this.2.2.2.1⟩
  · have hp2 : (WagerFilterC.handleMaxChange cfg s raw).2 = some p := hp
    cases hm : WagerFilterC.parseMaybeNumber raw with
    | none => simp [WagerFilterC.handleMaxChange, hm] at hp2
    | some parsedMax =>
        cases hx : WagerFilterC.parseMaybeNumber s.loc.min with
        | none => simp [WagerFilterC.handleMaxChange, hm, hx] at hp2
        | some parsedMin =>
            simp only [WagerFilterC.handleMaxChange, hm, hx] at hp2
            have := emit_coerced_lower_invariant cfg s parsedMin parsedMax p hcfg hp2
            exact ⟨this.2.2.2.2, this.1, this.2.1, this.2.2.1, this.2.2.2.1⟩
  · have hp2 : (WagerFilterC.handleBlurCoerceAndEmit cfg s).2 = some p := hp
    simp only [WagerFilterC.handleBlurCoerceAndEmit] at hp2
    have := emit_coerced_raise_invariant cfg s _ _ p hcfg hp2
    exact ⟨this.2.2.2.2, this.1, this.2.1, this.2.2.1, this.2.2.2.1⟩

/-- Closed instance of `filter_edit_blur_invariant`: editing the min bound to
2 under bounds [0.01, 5] emits the pair (2, 5), which satisfies the
invariant. -/
theorem filter_edit_blur_invariant_witness :
    (2:ℚ) ≤ 5 ∧ mkRat 1 100 ≤ (2:ℚ) ∧ (2:ℚ) ≤ 5 ∧
      mkRat 1 100 ≤ (5:ℚ) ∧ (5:ℚ) ≤ 5 :=
  filter_edit_blur_invariant { min := mkRat 1 100, max := 5 }
    (WagerFilterC.initFilterState none { min := mkRat 1 100, max := 5 })
    (.minChange (.num 2)) { min := 2, max := 5 }
    (by decide) (Or.inl ⟨_, rfl⟩) (by decide)

/-- C4 counterexample: with configured global bounds [1, 5], clicking the
hard-coded preset labelled with at most 0.1 ETH emits the pair (1, 0.1), whose
max is below its min and below the global lower bound. -/
theorem filter_preset_emits_out_of_bounds :
    (WagerFilterC.stepFilter { min := 1, max := 5 }
        (WagerFilterC.initFilterState none { min := 1, max := 5 })
        (.presetClick 1)).2
      = some { min := 1, max := mkRat 1 10 } ∧
    ¬ ((1:ℚ) ≤ mkRat 1 10) ∧
    ¬ (({ min := 1, max := 5 } : WagerFilterC.Bounds).min ≤ mkRat 1 10) := by decide

/-- C8: an `onChange` emission happens only for a pair that differs from the
last emitted pair (and it becomes the new last emitted pair); editing a bound
whose text does not parse to a number, or editing while the other field does
not parse, emits nothing.  Every emitted pair is a pair of finite numbers by
construction (clamped values or preset constants). -/
theorem filter_emission_gating (cfg : WagerFilterC.Bounds)
    (s : WagerFilterC.FilterState) (e : WagerFilterC.FEvent) :
    (∀ p, (WagerFilterC.stepFilter cfg s e).2 = some p →
        p ≠ s.lastEmitted ∧ (WagerFilterC.stepFilter cfg s e).1.lastEmitted = p) ∧
    (∀ raw, e = WagerFilterC.FEvent.minChange raw →
        WagerFilterC.parseMaybeNumber raw = none →
        (WagerFilterC.stepFilter cfg s e).2 = none) ∧
    (∀ raw, e = WagerFilterC.FEvent.maxChange raw →
        WagerFilterC.parseMaybeNumber raw = none →
        (WagerFilterC.stepFilter cfg s e).2 = none) ∧
    (∀ raw, e = WagerFilterC.FEvent.minChange raw →
        WagerFilterC.parseMaybeNumber s.loc.max = none →
        (WagerFilterC.stepFilter cfg s e).2 = none) ∧
    (∀ raw, e = WagerFilterC.FEvent.maxChange raw →
        WagerFilterC.parseMaybeNumber s.loc.min = none →
        (WagerFilterC.stepFilter cfg s e).2 = none) := by
  refine ⟨?_, ?_, ?_, ?_, ?_⟩
  · intro p hp
    cases e with
    | minChange raw =>
        have hp2 : (WagerFilterC.handleMinChange cfg s raw).2 = some p := hp
        cases hm : WagerFilterC.parseMaybeNumber raw with
        | none => simp [WagerFilterC.handleMinChange, hm] at hp2
        | some parsedMin =>
            cases hx : WagerFilterC.parseMaybeNumber s.loc.max with
            | none => simp [WagerFilterC.handleMinChange, hm, hx] at hp2
            | some parsedMax =>
                simp only [WagerFilterC.handleMinChange, hm, hx] at hp2
                obtain ⟨-, hne, hupd⟩ := emitAndUpdate_spec _ _ _ hp2
                refine ⟨hne, ?_⟩
                show (WagerFilterC.handleMinChange cfg s raw).1.lastEmitted = p
                simp only [WagerFilterC.handleMinChange, hm, hx]
                exact hupd
    | maxChange raw =>
        have hp2 : (WagerFilterC.handleMaxChange cfg s raw).2 = some p := hp
        cases hm : WagerFilterC.parseMaybeNumber raw with
        | none => simp [WagerFilterC.handleMaxChange, hm] at hp2
        | some parsedMax =>
            cases hx : WagerFilterC.parseMaybeNumber s.loc.min with
            | none => simp [WagerFilterC.handleMaxChange, hm, hx] at hp2
            | some parsedMin =>
                simp only [WagerFilterC.handleMaxChange, hm, hx] at hp2
                obtain ⟨-, hne, hupd⟩ := emitAndUpdate_spec _ _ _ hp2
                refine ⟨hne, ?_⟩
                show (WagerFilterC.handleMaxChange cfg s raw).1.lastEmitted = p
                simp only [WagerFilterC.handleMaxChange, hm, hx]
                exact hupd
    | blurEv =>
        have hp2 : (WagerFilterC.handleBlurCoerceAndEmit cfg s).2 = some p := hp
        obtain ⟨-, hne, hupd⟩ := emitAndUpdate_spec _ _ _ hp2
        exact ⟨hne, hupd⟩
    | presetClick i =>
        have hp2 : (WagerFilterC.stepFilter cfg s (.presetClick i)).2 = some p := hp
        cases hi : (WagerFilterC.presets cfg)[i]? with
        | none => simp [WagerFilterC.stepFilter, hi] at hp2
        | some pr =>
            simp only [WagerFilterC.stepFilter, hi] at hp2
            obtain ⟨-, hne, hupd⟩ := emitAndUpdate_spec _ _ _ hp2
            refine ⟨hne, ?_⟩
            show (WagerFilterC.stepFilter cfg s (.presetClick i)).1.lastEmitted = p
            simp only [WagerFilterC.stepFilter, hi]
            exact hupd
  · rintro raw rfl hnone
    show (WagerFilterC.handleMinChange cfg s raw).2 = none
    simp [WagerFilterC.handleMinChange, hnone]
  · rintro raw rfl hnone
    show (WagerFilterC.handleMaxChange cfg s raw).2 = none
    simp [WagerFilterC.handleMaxChange, hnone]
  · rintro raw rfl hnone
    show (WagerFilterC.handleMinChange cfg s raw).2 = none
    cases hm : WagerFilterC.parseMaybeNumber raw with
    | none => simp [WagerFilterC.handleMinChange, hm]
    | some v => simp [WagerFilterC.handleMinChange, hm, hnone]
  · rintro raw rfl hnone
    show (WagerFilterC.handleMaxChange cfg s raw).2 = none
    cases hm : WagerFilterC.parseMaybeNumber raw with
    | none => simp [WagerFilterC.handleMaxChange, hm]
    | some v => simp [WagerFilterC.handleMaxChange, hm, hnone]

/-- Closed instance of `filter_emission_gating`: editing the max bound to 3
under bounds [0.01, 5] emits a pair different from the last emitted pair and
records it. -/
theorem filter_emission_gating_witness :
    ({ min := mkRat 1 100, max := 3 } : WagerFilterC.MinMax)
        ≠ (WagerFilterC.initFilterState none
            { min := mkRat 1 100, max := 5 }).lastEmitted ∧
    (WagerFilterC.stepFilter { min := mkRat 1 100, max := 5 }
        (WagerFilterC.initFilterState none { min := mkRat 1 100, max := 5 })
        (.maxChange (.num 3))).1.lastEmitted
      = { min := mkRat 1 100, max := 3 } :=
  (filter_emission_gating { min := mkRat 1 100, max := 5 }
      (WagerFilterC.initFilterState none { min := mkRat 1 100, max := 5 })
      (.maxChange (.num 3))).1
    { min := mkRat 1 100, max := 3 } (by decide)

/-- C2 counterexample: a session kept open throughout — deposit fails, the
user retries via the Retry button, and the second deposit attempt also fails —
invokes `onComplete` twice, refuting the at-most-once-per-session bound. -/
theorem escrow_onComplete_twice_counterexample :
    ((Escrow.runModal true
        (Escrow.initModalState { defaultWager := some 1, opponentWagerEth := none })
        [.beginFlowEv (.ok ()), .confirmDepositEv (.error none) "0xmockedtx01",
         .restartEv, .beginFlowEv (.ok ()),
         .confirmDepositEv (.error (some "user rejected")) "0xmockedtx02"]).2).length
      = 2 ∧
    ¬ (((Escrow.runModal true
        (Escrow.initModalState { defaultWager := some 1, opponentWagerEth := none })
        [.beginFlowEv (.ok ()), .confirmDepositEv (.error none) "0xmockedtx01",
         .restartEv, .beginFlowEv (.ok ()),
         .confirmDepositEv (.error (some "user rejected")) "0xmockedtx02"]).2).length
      ≤ 1) := by decide
